import Mathlib

/-!
Shallow embedding of the zero-copy pinning cache ("ZCC") from
`src/data_structures.rs` and `src/pagesizes.rs`, together with theorems
settling the specification claims about it.

Modelling conventions:
* `usize` values (addresses, sizes, counters) are `Nat`; raw pointers are
  their integer addresses.
* `HashMap<K, V>` is an association list `List (K × V)` with
  replace-on-insert; `HashSet<T>` is a `List T` kept duplicate-free by
  inserting only absent elements.
* Fallible Rust code (`Result`) becomes `Except CacheError`; a Rust panic
  (divide by zero, `unimplemented!`) is a distinguished error or, for a
  call that never returns normally (a spin loop that never exits, a
  panicking policy callback), the `none` of an outer `Option` layer.
* The `DatapathSlab` trait is instantiated with the trivial in-memory slab
  capability: `PinningState = Option Nat` (`some d` when pinned with I/O
  descriptor `d`), `pin_segment` stores the registered start address as
  the descriptor, `PrivateInfo = Unit`.
* Mutexes disappear: the embedding is sequential, so every `lock` and
  `try_lock` succeeds.
-/

/-- Page-size constants from `pagesizes.rs` (`1 << PGSHIFT_x`). -/
def PGSIZE_4KB : Nat := 1 <<< 12

/-- Size in bytes of a 2 MiB page. -/
def PGSIZE_2MB : Nat := 1 <<< 21

/-- Size in bytes of a 1 GiB page. -/
def PGSIZE_1GB : Nat := 1 <<< 30

/-- Low-bits mask for 4 KiB pages (`PGSIZE_4KB - 1`). -/
def PGMASK_4KB : Nat := PGSIZE_4KB - 1

/-- Low-bits mask for 2 MiB pages. -/
def PGMASK_2MB : Nat := PGSIZE_2MB - 1

/-- Low-bits mask for 1 GiB pages. -/
def PGMASK_1GB : Nat := PGSIZE_1GB - 1

/-- Offset of `addr` within its 4 KiB page (`pgoff4kb`). -/
def pgoff4kb (addr : Nat) : Nat := addr &&& PGMASK_4KB

/-- Offset of `addr` within its 2 MiB page (`pgoff2mb`). -/
def pgoff2mb (addr : Nat) : Nat := addr &&& PGMASK_2MB

/-- Offset of `addr` within its 1 GiB page (`pgoff1gb`). -/
def pgoff1gb (addr : Nat) : Nat := addr &&& PGMASK_1GB

/-- Start of the 1 GiB page containing `addr` (`closest_1g_page`). -/
def closest_1g_page (addr : Nat) : Nat := addr - pgoff1gb addr

/-- Start of the 4 KiB page containing `addr` (`closest_4k_page`). -/
def closest_4k_page (addr : Nat) : Nat := addr - pgoff4kb addr

/-- Start of the 2 MiB page containing `addr` (`closest_2mb_page`). -/
def closest_2mb_page (addr : Nat) : Nat := addr - pgoff2mb addr

/-- Page sizes supported by the slab interface (`pagesizes::PageSize`). -/
inductive PageSize where
  | PG4KB : PageSize
  | PG2MB : PageSize
  | PG1GB : PageSize
deriving DecidableEq, Repr

/-- Byte size of a `PageSize` (`get_page_size_as_num`). -/
def pageSizeNum : PageSize → Nat
  | PageSize.PG4KB => PGSIZE_4KB
  | PageSize.PG2MB => PGSIZE_2MB
  | PageSize.PG1GB => PGSIZE_1GB

/-- Error kinds surfaced by the embedded code. `panicDivideByZero` models a
Rust integer division/remainder panic; the other constructors model the
`bail!`/`ensure!` error returns of the source. -/
inductive CacheError where
  | invalidConfig : CacheError
  | invalidSlab : CacheError
  | segmentNotFound : CacheError
  | unknownCacheType : CacheError
  | pinThreadMisconfigured : CacheError
  | panicDivideByZero : CacheError
deriving DecidableEq, Repr

/-- Replacement-policy selector (`CacheType`). -/
inductive CacheType where
  | OnDemandLru : CacheType
  | TimestampLru : CacheType
  | LinkedListLru : CacheType
  | Mfu : CacheType
  | NoAlg : CacheType
deriving DecidableEq, Repr

/-- Translation of `impl FromStr for CacheType`: each policy name is accepted
in exactly the three spellings listed in the source match arms; everything
else takes the `bail!` arm. -/
def CacheType.from_str (s : String) : Except CacheError CacheType :=
  if s = "ondemandlru" ∨ s = "OnDemandLru" ∨ s = "ONDEMANDLRU" then
    Except.ok CacheType.OnDemandLru
  else if s = "timestamplru" ∨ s = "TimestampLru" ∨ s = "TIMESTAMPLRU" then
    Except.ok CacheType.TimestampLru
  else if s = "linkedlistlru" ∨ s = "LinkedListLru" ∨ s = "LINKEDLISTLRU" then
    Except.ok CacheType.LinkedListLru
  else if s = "mfu" ∨ s = "Mfu" ∨ s = "MFU" then
    Except.ok CacheType.Mfu
  else if s = "noalg" ∨ s = "NoAlg" ∨ s = "NOALG" then
    Except.ok CacheType.NoAlg
  else
    Except.error CacheError.unknownCacheType

/-- Decidable equality for `Except` results, so that concrete runs of the
embedded fallible operations can be checked by evaluation. -/
instance {E A : Type} [DecidableEq E] [DecidableEq A] :
    DecidableEq (Except E A) := fun a b =>
  match a, b with
  | Except.error x, Except.error y =>
      if h : x = y then isTrue (congrArg Except.error h)
      else isFalse (fun he => h (by injection he))
  | Except.error _, Except.ok _ => isFalse (fun he => Except.noConfusion he)
  | Except.ok _, Except.error _ => isFalse (fun he => Except.noConfusion he)
  | Except.ok x, Except.ok y =>
      if h : x = y then isTrue (congrArg Except.ok h)
      else isFalse (fun he => h (by injection he))

/-- Segment identifier: `(SlabId, index)` with `SlabId` instantiated at
`Nat` (the trait only requires a hashable, copyable id). -/
def SegmentId : Type := Nat × Nat
deriving DecidableEq, Repr

/-- Lookup in an association-list model of `HashMap` (first matching key). -/
def lookupKV {K V : Type} [DecidableEq K] : List (K × V) → K → Option V
  | [], _ => none
  | (k1, v) :: rest, k => if k = k1 then some v else lookupKV rest k

/-- Replace-on-insert for the association-list model of `HashMap::insert`. -/
def insertKV {K V : Type} [DecidableEq K] (m : List (K × V)) (k : K) (v : V) :
    List (K × V) :=
  (k, v) :: m.filter (fun p => decide (p.1 ≠ k))

/-- In-place mutation of the value stored under key `k`, modelling a write
through `HashMap::get` (the key set is unchanged). -/
def updateKV {K V : Type} [DecidableEq K] (m : List (K × V)) (k : K)
    (f : V → V) : List (K × V) :=
  m.map (fun p => if p.1 = k then (p.1, f p.2) else p)

/-- Insert into the duplicate-free list model of `HashSet::insert`. -/
def insertSet {T : Type} [DecidableEq T] (s : List T) (x : T) : List T :=
  if x ∈ s then s else s ++ [x]

/-- The MFU policy state (`MfuCache`): per-segment access counts plus the
reconciler's committed pinned list. -/
structure MfuCache where
  limit : Nat
  access_counts : List (SegmentId × Nat)
  current_pinned_list : List SegmentId
deriving DecidableEq, Repr

/-- Comparator used by `MfuCache::return_top_segments_to_pin`: the source
sorts with `|a, b| b.1.partial_cmp(&a.1)`, i.e. by access count
descending. -/
def mfuDescByCount (a b : SegmentId × Nat) : Prop := b.2 ≤ a.2

instance : DecidableRel mfuDescByCount := fun a b => Nat.decLe b.2 a.2

instance : IsTotal (SegmentId × Nat) mfuDescByCount :=
  ⟨fun a b => Nat.le_total b.2 a.2⟩

instance : IsTrans (SegmentId × Nat) mfuDescByCount :=
  ⟨fun _ _ _ h1 h2 => Nat.le_trans h2 h1⟩

/-- Translation of `MfuCache::return_top_segments_to_pin`: collect the
`access_counts` entries, stable-sort by count descending, keep the first
`limit` entries (`enumerate().take_while(|(i, _)| *i < limit)`), project the
ids and gather them into a set (`HashSet::from_iter`, modelled by
`dedup`). -/
def MfuCache.return_top_segments_to_pin (m : MfuCache) : List SegmentId :=
  ((List.insertionSort mfuDescByCount m.access_counts).take m.limit).map
    (fun p => p.1) |>.dedup

/-- Translation of `MfuCache::update_access`: bump the stored count,
defaulting to `0` when the id is new (`unwrap_or(&0)`). -/
def MfuCache.update_access (m : MfuCache) (id : SegmentId) : MfuCache :=
  { m with
    access_counts :=
      insertKV m.access_counts id ((lookupKV m.access_counts id).getD 0 + 1) }

/-- Translation of `MfuCache::reset`: `*val = 0` for every entry of
`access_counts` through `iter_mut`. -/
def MfuCache.reset (m : MfuCache) : MfuCache :=
  { m with access_counts := m.access_counts.map (fun p => (p.1, 0)) }

/-- The `CacheBuilder` trait over policy state `σ`. `insert_and_evict`
returns `none` when the policy panics there (`unimplemented!()` /
`unreachable!()` in every shipped policy). -/
structure CacheBuilder (σ : Type) where
  mk_new : Nat → σ
  return_top_segments_to_pin : σ → List SegmentId
  insert_and_evict : σ → SegmentId → Option (σ × Option SegmentId)
  update_access : σ → SegmentId → σ
  reset : σ → σ
  current_pinned_segments : σ → List SegmentId
  set_current_pinned_list : σ → List SegmentId → σ

/-- Default trait method `CacheBuilder::current_bytes_pinned`:
`current_pinned_segments().len() * segment_size`. -/
def CacheBuilder.current_bytes_pinned {σ : Type} (CB : CacheBuilder σ)
    (s : σ) (segment_size : Nat) : Nat :=
  (CB.current_pinned_segments s).length * segment_size

/-- The `CacheBuilder` implementation for `MfuCache`; `insert_and_evict` is
`unimplemented!()` in the source, hence `none`. -/
def mfuBuilder : CacheBuilder MfuCache where
  mk_new := fun limit =>
    { limit := limit, access_counts := [], current_pinned_list := [] }
  return_top_segments_to_pin := MfuCache.return_top_segments_to_pin
  insert_and_evict := fun _ _ => none
  update_access := MfuCache.update_access
  reset := MfuCache.reset
  current_pinned_segments := fun m => m.current_pinned_list
  set_current_pinned_list := fun m l => { m with current_pinned_list := l }

/-- A segment of a slab (`DatapathSegment`), with the trivial in-memory slab
capability's pinning state (`some d` = pinned with I/O descriptor `d`). -/
structure DatapathSegment where
  start_address : Nat
  num_pages : Nat
  page_size : PageSize
  pinning_state : Option Nat
  id : SegmentId
deriving DecidableEq, Repr

/-- Byte size of this segment's pages (`DatapathSegment::get_page_size_as_num`). -/
def DatapathSegment.get_page_size_as_num (s : DatapathSegment) : Nat :=
  pageSizeNum s.page_size

/-- Translation of `DatapathSegment::register`: pin the segment through the
slab capability; the trivial capability records the registered start
address as the I/O descriptor. -/
def DatapathSegment.register (s : DatapathSegment) : DatapathSegment :=
  { s with pinning_state := some s.start_address }

/-- Translation of `DatapathSegment::unregister`. -/
def DatapathSegment.unregister (s : DatapathSegment) : DatapathSegment :=
  { s with pinning_state := none }

/-- Translation of `DatapathSegment::is_pinned`. -/
def DatapathSegment.is_pinned (s : DatapathSegment) : Bool :=
  s.pinning_state.isSome

/-- Translation of `DatapathSegment::get_io_info` for the trivial
capability (`0` for an unpinned state, which the source never queries). -/
def DatapathSegment.get_io_info (s : DatapathSegment) : Nat :=
  s.pinning_state.getD 0

/-- Page-start addresses of this segment when its page size is `ps`
(`get_4kb_pages` / `get_2mb_pages` / `get_1gb_pages`). -/
def DatapathSegment.pages_of_size (s : DatapathSegment) (ps : PageSize) :
    List Nat :=
  if s.page_size = ps then
    (List.range s.num_pages).map
      (fun i => s.start_address + s.get_page_size_as_num * i)
  else []

/-- A segment slot: the tuple `(DatapathSegment, usize, bool)` the cache
keeps behind each mutex — segment, `in_flight` I/O count, `quiescing`
flag. -/
structure Slot where
  seg : DatapathSegment
  in_flight : Nat
  quiescing : Bool
deriving DecidableEq, Repr

/-- The slab capability data consumed by `initialize_slab` (`DatapathSlab`
accessors: id, start address, total pages, page size). -/
structure Slab where
  slab_id : Nat
  start_address : Nat
  total_num_pages : Nat
  page_size : PageSize
deriving DecidableEq, Repr

/-- The cache (`ZeroCopyCache<Slab, CB>`), generic over policy state `σ`.
`sleep_duration` and the `Arc`/`Mutex` wrappers of the source have no
observable sequential content and are dropped; `priv_info` is the trivial
capability's `Unit`. -/
structure ZeroCopyCache (σ : Type) where
  pinning_limit : Nat
  segment_size : Nat
  pin_on_demand : Bool
  segments : List (SegmentId × Slot)
  cache_builder : σ
  page_cache_2mb : List (Nat × SegmentId)
  page_cache_4kb : List (Nat × SegmentId)
  page_cache_1gb : List (Nat × SegmentId)
deriving DecidableEq, Repr

/-- Translation of `ZeroCopyCache::new`. The two `ensure!` guards are
checked in source order; when `segment_size = 0` the source then panics on
an integer division or remainder by zero (`pinning_limit % segment_size`
in the second guard when `pinning_limit > 0`, otherwise
`pinning_limit / segment_size` in the `CacheBuilder::new` call), modelled
as `panicDivideByZero`. -/
def ZeroCopyCache.new {σ : Type} (CB : CacheBuilder σ)
    (pinning_limit segment_size : Nat) (pin_on_demand : Bool)
    (priv_info : Unit) : Except CacheError (ZeroCopyCache σ) :=
  if ¬ segment_size ≤ pinning_limit then Except.error CacheError.invalidConfig
  else if segment_size = 0 then Except.error CacheError.panicDivideByZero
  else if ¬ pinning_limit % segment_size = 0 then
    Except.error CacheError.invalidConfig
  else
    Except.ok
      { pinning_limit := pinning_limit
        segment_size := segment_size
        pin_on_demand := pin_on_demand
        segments := []
        cache_builder := CB.mk_new (pinning_limit / segment_size)
        page_cache_2mb := []
        page_cache_4kb := []
        page_cache_1gb := [] }

/-- Translation of `ZeroCopyCache::current_bytes_pinned`. -/
def ZeroCopyCache.current_bytes_pinned {σ : Type} (CB : CacheBuilder σ)
    (c : ZeroCopyCache σ) : Nat :=
  CB.current_bytes_pinned c.cache_builder c.segment_size

/-- Translation of `ZeroCopyCache::pin_segment`: register the slot's
segment and return its I/O info, or `bail!` when the id is not in the
registry. -/
def ZeroCopyCache.pin_segment {σ : Type} (c : ZeroCopyCache σ)
    (id : SegmentId) (priv_info : Unit) :
    Except CacheError (Nat × ZeroCopyCache σ) :=
  match lookupKV c.segments id with
  | some slot =>
      Except.ok
        (slot.seg.register.get_io_info,
          { c with
            segments :=
              updateKV c.segments id (fun s => { s with seg := s.seg.register }) })
  | none => Except.error CacheError.segmentNotFound

/-- Translation of `ZeroCopyCache::unpin_segment`. A missing id is logged
and skipped (`Ok(())` with the state unchanged). Otherwise the source spins
setting `quiescing := true` until `in_flight == 0`, then unregisters and
clears `quiescing`; sequentially the spin either exits on its first
iteration or never (`none`). -/
def ZeroCopyCache.unpin_segment {σ : Type} (c : ZeroCopyCache σ)
    (id : SegmentId) : Option (ZeroCopyCache σ) :=
  match lookupKV c.segments id with
  | none => some c
  | some slot =>
      if slot.in_flight = 0 then
        some
          { c with
            segments :=
              updateKV c.segments id
                (fun s => { s with seg := s.seg.unregister, quiescing := false }) }
      else none

/-- Unpin every listed segment in order, modelling the first `for` loop of
`update_pinned_list` (each call can only block forever, never error). -/
def ZeroCopyCache.unpinAll {σ : Type} (c : ZeroCopyCache σ)
    (items : List SegmentId) : Option (ZeroCopyCache σ) :=
  items.foldlM (fun acc id => acc.unpin_segment id) c

/-- Pin every listed segment in order, modelling the second `for` loop of
`update_pinned_list` (`let _ = self.pin_segment(item, priv_info)?`). -/
def ZeroCopyCache.pinAll {σ : Type} (c : ZeroCopyCache σ)
    (items : List SegmentId) (priv_info : Unit) :
    Except CacheError (ZeroCopyCache σ) :=
  items.foldlM (fun acc id => (acc.pin_segment id priv_info).map Prod.snd) c

/-- Translation of `ZeroCopyCache::update_pinned_list`: one reconciliation
pass. Set differences are iterated as `filter`s of the duplicate-free list
model of `HashSet::difference`. -/
def ZeroCopyCache.update_pinned_list {σ : Type} (CB : CacheBuilder σ)
    (c : ZeroCopyCache σ) (priv_info : Unit) :
    Option (Except CacheError (ZeroCopyCache σ)) :=
  let new_pinned_list := CB.return_top_segments_to_pin c.cache_builder
  let current_pinned_list := CB.current_pinned_segments c.cache_builder
  match c.unpinAll (current_pinned_list.filter
      (fun x => decide (¬ x ∈ new_pinned_list))) with
  | none => none
  | some c1 =>
      match c1.pinAll (new_pinned_list.filter
          (fun x => decide (¬ x ∈ current_pinned_list))) priv_info with
      | Except.error e => some (Except.error e)
      | Except.ok c2 =>
          some (Except.ok
            { c2 with
              cache_builder :=
                CB.set_current_pinned_list c2.cache_builder new_pinned_list })

/-- The body of `pin_and_unpin_thread`'s `loop`. The source loop never
exits normally; `fuel` bounds how many iterations the embedding unrolls,
`none` meaning the loop is still running (or an unpin is still draining).
The loop terminates — with `some (Except.error _)` — exactly when an
iteration's `update_pinned_list` propagates an error through `?`. -/
def ZeroCopyCache.reconcilerLoop {σ : Type} (CB : CacheBuilder σ)
    (fuel : Nat) (c : ZeroCopyCache σ) (priv_info : Unit) :
    Option (Except CacheError (ZeroCopyCache σ)) :=
  match fuel with
  | 0 => none
  | fuel + 1 =>
      match ZeroCopyCache.update_pinned_list CB c priv_info with
      | none => none
      | some (Except.error e) => some (Except.error e)
      | some (Except.ok c1) =>
          ZeroCopyCache.reconcilerLoop CB fuel c1 priv_info

/-- Translation of `ZeroCopyCache::pin_and_unpin_thread`: `bail!` when
pin-on-demand is configured, otherwise run the reconciliation loop. -/
def ZeroCopyCache.pin_and_unpin_thread {σ : Type} (CB : CacheBuilder σ)
    (fuel : Nat) (c : ZeroCopyCache σ) (priv_info : Unit) :
    Option (Except CacheError (ZeroCopyCache σ)) :=
  if c.pin_on_demand then some (Except.error CacheError.pinThreadMisconfigured)
  else ZeroCopyCache.reconcilerLoop CB fuel c priv_info

/-- The `DatapathSegment::new` call inside `initialize_slab`'s loop: segment
`reg` starts at `slab.start + reg_size * reg` with
`pages_per_registration` pages and the default (unpinned) state. -/
def initSlabSeg (slab : Slab) (pages_per_registration reg_size reg : Nat) :
    DatapathSegment :=
  { start_address := slab.start_address + reg_size * reg
    num_pages := pages_per_registration
    page_size := slab.page_size
    pinning_state := none
    id := (slab.slab_id, reg) }

/-- The registration guard of `initialize_slab`'s loop:
`register_at_start && self.current_bytes_pinned() < self.pinning_limit`. -/
def initSlabShouldPin {σ : Type} (CB : CacheBuilder σ)
    (register_at_start : Bool) (c : ZeroCopyCache σ) : Prop :=
  register_at_start = true ∧
    ZeroCopyCache.current_bytes_pinned CB c < c.pinning_limit

instance {σ : Type} (CB : CacheBuilder σ) (ras : Bool) (c : ZeroCopyCache σ) :
    Decidable (initSlabShouldPin CB ras c) :=
  instDecidableAnd

/-- The slot that `initialize_slab`'s loop body produces for index `reg`,
as a function of the cache state the registration guard reads. -/
def initSlabSlot {σ : Type} (CB : CacheBuilder σ) (slab : Slab) (ras : Bool)
    (ppr rs : Nat) (c : ZeroCopyCache σ) (reg : Nat) : Slot :=
  if initSlabShouldPin CB ras c then
    { seg := (initSlabSeg slab ppr rs reg).register
      in_flight := 0
      quiescing := false }
  else
    { seg := initSlabSeg slab ppr rs reg, in_flight := 0, quiescing := false }

/-- One iteration of the segment-creation closure inside
`initialize_slab`'s `(0..num_registrations).map(|reg| ...)`: build the
segment, insert its page-start addresses into the page caches, and — when
the registration guard holds — register it and add its id to the
pass-local pinned list. The accumulator carries the cache (whose page
caches the closure mutates through `self`), the local `cur_pinned_list`,
and the `segs` vector being built. -/
def ZeroCopyCache.initSlabStep {σ : Type} (CB : CacheBuilder σ) (slab : Slab)
    (register_at_start : Bool) (pages_per_registration reg_size : Nat)
    (acc : ZeroCopyCache σ × List SegmentId × List Slot) (reg : Nat) :
    ZeroCopyCache σ × List SegmentId × List Slot :=
  let c0 := acc.1
  let cur := acc.2.1
  let segs := acc.2.2
  let seg0 := initSlabSeg slab pages_per_registration reg_size reg
  let c1 :=
    { c0 with
      page_cache_4kb :=
        (seg0.pages_of_size PageSize.PG4KB).foldl
          (fun m page => insertKV m page (slab.slab_id, reg)) c0.page_cache_4kb
      page_cache_2mb :=
        (seg0.pages_of_size PageSize.PG2MB).foldl
          (fun m page => insertKV m page (slab.slab_id, reg)) c0.page_cache_2mb
      page_cache_1gb :=
        (seg0.pages_of_size PageSize.PG1GB).foldl
          (fun m page => insertKV m page (slab.slab_id, reg)) c0.page_cache_1gb }
  (c1,
    if initSlabShouldPin CB register_at_start c1 then
      insertSet cur (slab.slab_id, reg)
    else cur,
    segs ++ [initSlabSlot CB slab register_at_start
      pages_per_registration reg_size c1 reg])

/-- Translation of `ZeroCopyCache::initialize_slab`. The `ensure!` guard
computes `mempool_size % self.segment_size`, which panics in Rust when
`segment_size = 0` (unreachable through `new`, which already panics
there). After the per-segment loop the created slots are inserted into the
registry under `(slab_id, i)` for their enumeration index `i`, and the
pass-local pinned list is committed to the policy. -/
def ZeroCopyCache.initialize_slab {σ : Type} (CB : CacheBuilder σ)
    (c : ZeroCopyCache σ) (slab : Slab) (register_at_start : Bool)
    (priv_info : Unit) : Except CacheError (ZeroCopyCache σ) :=
  let mempool_size := slab.total_num_pages * pageSizeNum slab.page_size
  if c.segment_size = 0 then Except.error CacheError.panicDivideByZero
  else if ¬ (mempool_size ≥ c.segment_size ∧
      mempool_size % c.segment_size = 0) then
    Except.error CacheError.invalidSlab
  else
    let num_registrations := mempool_size / c.segment_size
    let pages_per_registration := slab.total_num_pages / num_registrations
    let reg_size := pages_per_registration * pageSizeNum slab.page_size
    let cur0 := CB.current_pinned_segments c.cache_builder
    let folded :=
      (List.range num_registrations).foldl
        (ZeroCopyCache.initSlabStep CB slab register_at_start
          pages_per_registration reg_size)
        (c, cur0, [])
    let c2 := folded.1
    let c3 :=
      { c2 with
        segments :=
          (folded.2.2.enum).foldl
            (fun (m : List (SegmentId × Slot)) (p : Nat × Slot) =>
              insertKV m (slab.slab_id, p.1) p.2) c2.segments }
    Except.ok
      { c3 with
        cache_builder :=
          CB.set_current_pinned_list c3.cache_builder folded.2.1 }

/-- Translation of `ZeroCopyCache::get_segment_id`: consult the 2 MiB,
4 KiB, then 1 GiB page cache at the buffer's masked address, returning the
first hit. -/
def ZeroCopyCache.get_segment_id {σ : Type} (c : ZeroCopyCache σ)
    (buf : Nat) : Option SegmentId :=
  match lookupKV c.page_cache_2mb (closest_2mb_page buf) with
  | some m => some m
  | none =>
      match lookupKV c.page_cache_4kb (closest_4k_page buf) with
      | some m => some m
      | none =>
          match lookupKV c.page_cache_1gb (closest_1g_page buf) with
          | some m => some m
          | none => none

/-- Translation of `ZeroCopyCache::record_io_completion`: decrement the
resolved slot's in-flight count (`usize` subtraction; the source does not
guard against underflow). -/
def ZeroCopyCache.record_io_completion {σ : Type} (c : ZeroCopyCache σ)
    (addr : Nat) : ZeroCopyCache σ :=
  match c.get_segment_id addr with
  | none => c
  | some segment_id =>
      match lookupKV c.segments segment_id with
      | none => c
      | some _ =>
          { c with
            segments :=
              updateKV c.segments segment_id
                (fun s => { s with in_flight := s.in_flight - 1 }) }

/-- Translation of `ZeroCopyCache::record_and_pin_on_demand`: update the
policy, let it admit the id and possibly name an evictee, unpin the
evictee, pin the accessed segment, and return its I/O info. `none` means
the call does not return normally (the policy's `insert_and_evict`
panicked, or the evictee's drain spin never exits). -/
def ZeroCopyCache.record_and_pin_on_demand {σ : Type} (CB : CacheBuilder σ)
    (c : ZeroCopyCache σ) (segment_id : SegmentId) (priv_info : Unit) :
    Option (Except CacheError (Option (Nat × Nat) × ZeroCopyCache σ)) :=
  match CB.insert_and_evict (CB.update_access c.cache_builder segment_id)
      segment_id with
  | none => none
  | some (cb2, seg_id_option) =>
      let c1 := { c with cache_builder := cb2 }
      let afterUnpin :=
        match seg_id_option with
        | some seg_id => c1.unpin_segment seg_id
        | none => some c1
      match afterUnpin with
      | none => none
      | some c2 =>
          match c2.pin_segment segment_id priv_info with
          | Except.error e => some (Except.error e)
          | Except.ok (io_info, c3) =>
              some (Except.ok (some (segment_id.1, io_info), c3))

/-- Translation of `ZeroCopyCache::record_access_and_get_io_info_if_pinned`
(the fast path). Sequentially the `try_lock` always succeeds, so the
contention branch of the source is unreachable here. In the periodic
branch the source increments the slot's in-flight count as soon as the
segment is pinned, before testing the quiescing flag. -/
def ZeroCopyCache.record_access_and_get_io_info_if_pinned {σ : Type}
    (CB : CacheBuilder σ) (c : ZeroCopyCache σ) (buf : Nat)
    (priv_info : Unit) :
    Option (Except CacheError (Option (Nat × Nat) × ZeroCopyCache σ)) :=
  match c.get_segment_id buf with
  | none => some (Except.ok (none, c))
  | some segment_id =>
      if c.pin_on_demand then
        ZeroCopyCache.record_and_pin_on_demand CB c segment_id priv_info
      else
        let c1 :=
          { c with cache_builder := CB.update_access c.cache_builder segment_id }
        match lookupKV c1.segments segment_id with
        | none => some (Except.ok (none, c1))
        | some slot =>
            if slot.seg.is_pinned then
              let c2 :=
                { c1 with
                  segments :=
                    updateKV c1.segments segment_id
                      (fun s => { s with in_flight := s.in_flight + 1 }) }
              if slot.quiescing then some (Except.ok (none, c2))
              else
                some (Except.ok
                  (some (segment_id.1, slot.seg.get_io_info), c2))
            else some (Except.ok (none, c1))

/-! Concrete fixtures used to evaluate the embedded operations. -/

/-- A freshly constructed cache with `pinning_limit = segment_size = 4096`
in periodic mode, running the MFU policy (the state `new` produces). -/
def zcc4096 : ZeroCopyCache MfuCache :=
  { pinning_limit := 4096
    segment_size := 4096
    pin_on_demand := false
    segments := []
    cache_builder := { limit := 1, access_counts := [], current_pinned_list := [] }
    page_cache_2mb := []
    page_cache_4kb := []
    page_cache_1gb := [] }

/-- A slab of two 4 KiB pages starting at `0x1000_0000`. -/
def twoPageSlab : Slab :=
  { slab_id := 3
    start_address := 268435456
    total_num_pages := 2
    page_size := PageSize.PG4KB }

/-- A slab of one 4 KiB page starting at `0x1000_0000`. -/
def onePageSlab : Slab :=
  { slab_id := 7
    start_address := 268435456
    total_num_pages := 1
    page_size := PageSize.PG4KB }

/-- A periodic-mode cache holding one registered, pinned segment whose slot
is quiescing with no I/O in flight — the state the reconciler's drain
protocol creates the moment it decides to unpin (spec scenario 5). -/
def quiescingCache : ZeroCopyCache MfuCache :=
  { pinning_limit := 4096
    segment_size := 4096
    pin_on_demand := false
    segments :=
      [((3, 0),
        { seg :=
            { start_address := 268435456
              num_pages := 1
              page_size := PageSize.PG4KB
              pinning_state := some 268435456
              id := (3, 0) }
          in_flight := 0
          quiescing := true })]
    cache_builder := { limit := 1, access_counts := [], current_pinned_list := [(3, 0)] }
    page_cache_2mb := []
    page_cache_4kb := [(268435456, (3, 0))]
    page_cache_1gb := [] }

/-- A periodic-mode cache whose MFU policy has observed accesses to a
segment id that is not in the (empty) segment registry, so the desired
pinned set names a dangling id. -/
def danglingDesiredCache : ZeroCopyCache MfuCache :=
  { pinning_limit := 4096
    segment_size := 4096
    pin_on_demand := false
    segments := []
    cache_builder :=
      { limit := 1, access_counts := [((7, 7), 5)], current_pinned_list := [] }
    page_cache_2mb := []
    page_cache_4kb := []
    page_cache_1gb := [] }

/-- An MFU state with one recorded access, used to instantiate the
MFU theorems. -/
def mfuExample : MfuCache :=
  { limit := 2
    access_counts := [((1, 1), 3), ((2, 2), 7), ((3, 3), 5)]
    current_pinned_list := [(1, 1)] }

/-- A trivial policy instance over `σ = Unit` (spec §9: tests ship with
trivial capability instances); its `insert_and_evict` admits without
evicting, so it can drive the generic pin-on-demand path. -/
def unitBuilder : CacheBuilder Unit :=
  { mk_new := fun _ => ()
    return_top_segments_to_pin := fun _ => []
    insert_and_evict := fun s _ => some (s, none)
    update_access := fun s _ => s
    reset := fun s => s
    current_pinned_segments := fun _ => []
    set_current_pinned_list := fun s _ => s }

/-- A pin-on-demand cache with one registered but unpinned segment. -/
def onDemandCache : ZeroCopyCache Unit :=
  { pinning_limit := 4096
    segment_size := 4096
    pin_on_demand := true
    segments :=
      [((3, 0),
        { seg :=
            { start_address := 268435456
              num_pages := 1
              page_size := PageSize.PG4KB
              pinning_state := none
              id := (3, 0) }
          in_flight := 0
          quiescing := false })]
    cache_builder := ()
    page_cache_2mb := []
    page_cache_4kb := [(268435456, (3, 0))]
    page_cache_1gb := [] }

/-- The cache `onDemandCache` becomes after a successful on-demand access
to its segment: the same state with the segment pinned. -/
def onDemandCacheAfter : ZeroCopyCache Unit :=
  { onDemandCache with
    segments :=
      [((3, 0),
        { seg :=
            { start_address := 268435456
              num_pages := 1
              page_size := PageSize.PG4KB
              pinning_state := some 268435456
              id := (3, 0) }
          in_flight := 0
          quiescing := false })] }

/-- Result of constructing a 4096/4096 cache and initializing the
two-page slab with `register_at_start = true` (the C2 scenario). -/
def overpinnedRun : Option (ZeroCopyCache MfuCache) :=
  (ZeroCopyCache.new mfuBuilder 4096 4096 false ()).toOption.bind
    (fun c => (ZeroCopyCache.initialize_slab mfuBuilder c twoPageSlab true ()).toOption)

/-- Result of constructing a 2048/2048 cache and initializing the
one-page slab (segment size half a page, accepted by the guards). -/
def truncatedRun : Option (ZeroCopyCache MfuCache) :=
  (ZeroCopyCache.new mfuBuilder 2048 2048 false ()).toOption.bind
    (fun c => (ZeroCopyCache.initialize_slab mfuBuilder c onePageSlab false ()).toOption)

/-- The cache produced by initializing `twoPageSlab` on `zcc4096` without
registration (used to instantiate the initialize-slab layout theorem). -/
def layoutRunCache : ZeroCopyCache MfuCache :=
  match ZeroCopyCache.initialize_slab mfuBuilder zcc4096 twoPageSlab false () with
  | Except.ok c => c
  | Except.error _ => zcc4096

/-- The accepted spellings of the cache-type names with the policy each
parses to, as listed in the source `match`. -/
def acceptedCacheTypeNames : List (String × CacheType) :=
  [("ondemandlru", CacheType.OnDemandLru), ("OnDemandLru", CacheType.OnDemandLru),
   ("ONDEMANDLRU", CacheType.OnDemandLru),
   ("timestamplru", CacheType.TimestampLru), ("TimestampLru", CacheType.TimestampLru),
   ("TIMESTAMPLRU", CacheType.TimestampLru),
   ("linkedlistlru", CacheType.LinkedListLru), ("LinkedListLru", CacheType.LinkedListLru),
   ("LINKEDLISTLRU", CacheType.LinkedListLru),
   ("mfu", CacheType.Mfu), ("Mfu", CacheType.Mfu), ("MFU", CacheType.Mfu),
   ("noalg", CacheType.NoAlg), ("NoAlg", CacheType.NoAlg), ("NOALG", CacheType.NoAlg)]

/-! Helper lemmas about the association-list model. -/

theorem lookupKV_mem {K V : Type} [DecidableEq K] :
    ∀ {m : List (K × V)} {k : K} {v : V}, lookupKV m k = some v → (k, v) ∈ m := by
  intro m
  induction m with
  | nil => intro k v h; simp [lookupKV] at h
  | cons p rest ih =>
      intro k v h
      obtain ⟨k1, v1⟩ := p
      simp only [lookupKV] at h
      by_cases hk : k = k1
      · rw [if_pos hk] at h
        cases h
        subst hk
        exact List.mem_cons_self _ _
      · rw [if_neg hk] at h
        exact List.mem_cons_of_mem _ (ih h)

theorem lookupKV_filter_of_true {K V : Type} [DecidableEq K]
    (q : K × V → Bool) :
    ∀ (m : List (K × V)) (k1 : K), (∀ v, q (k1, v) = true) →
      lookupKV (m.filter q) k1 = lookupKV m k1 := by
  intro m
  induction m with
  | nil => intro k1 _; rfl
  | cons p rest ih =>
      intro k1 hq1
      obtain ⟨kp, vp⟩ := p
      rcases hq : q (kp, vp) with _ | _
      · have hne : ¬ k1 = kp := by
          intro he
          rw [← he] at hq
          rw [hq1 vp] at hq
          cases hq
        rw [List.filter_cons_of_neg (by simp [hq]), ih k1 hq1]
        show lookupKV rest k1 = lookupKV ((kp, vp) :: rest) k1
        simp only [lookupKV, if_neg hne]
      · rw [List.filter_cons_of_pos hq]
        show lookupKV ((kp, vp) :: rest.filter q) k1 = lookupKV ((kp, vp) :: rest) k1
        by_cases h1 : k1 = kp
        · simp only [lookupKV, if_pos h1]
        · simp only [lookupKV, if_neg h1]
          exact ih k1 hq1

theorem lookupKV_insertKV_self {K V : Type} [DecidableEq K]
    (m : List (K × V)) (k : K) (v : V) :
    lookupKV (insertKV m k v) k = some v := by
  simp [insertKV, lookupKV]

theorem lookupKV_insertKV_other {K V : Type} [DecidableEq K]
    (m : List (K × V)) (k k1 : K) (v : V) (h : k1 ≠ k) :
    lookupKV (insertKV m k v) k1 = lookupKV m k1 := by
  show lookupKV ((k, v) :: m.filter (fun p => decide (p.1 ≠ k))) k1 = lookupKV m k1
  simp only [lookupKV, if_neg h]
  exact lookupKV_filter_of_true _ m k1 (fun v1 => by simpa using h)

theorem lookupKV_updateKV {K V : Type} [DecidableEq K]
    (k : K) (f : V → V) :
    ∀ (m : List (K × V)) (k1 : K),
      lookupKV (updateKV m k f) k1 =
        if k1 = k then (lookupKV m k1).map f else lookupKV m k1 := by
  intro m
  induction m with
  | nil => intro k1; simp [updateKV, lookupKV]
  | cons p rest ih =>
      intro k1
      obtain ⟨kp, vp⟩ := p
      by_cases hp : kp = k
      · subst hp
        have hu : updateKV ((kp, vp) :: rest) kp f = (kp, f vp) :: updateKV rest kp f := by
          simp [updateKV]
        rw [hu]
        by_cases h1 : k1 = kp
        · subst h1
          simp [lookupKV]
        · simp only [lookupKV, if_neg h1]
          rw [ih k1, if_neg h1]
      · have hu : updateKV ((kp, vp) :: rest) k f = (kp, vp) :: updateKV rest k f := by
          simp [updateKV, hp]
        rw [hu]
        by_cases h1 : k1 = kp
        · subst h1
          rw [if_neg hp]
          simp [lookupKV]
        · simp only [lookupKV, if_neg h1]
          rw [ih k1]

theorem foldlInsert_lookup_of_ne {V : Type} (sid i : Nat) :
    ∀ (ps : List (Nat × V)) (m0 : List (SegmentId × V)),
      (∀ p ∈ ps, p.1 ≠ i) →
      lookupKV (ps.foldl (fun m p => insertKV m (sid, p.1) p.2) m0) (sid, i) =
        lookupKV m0 (sid, i) := by
  intro ps
  induction ps with
  | nil => intro m0 _; rfl
  | cons q rest ih =>
      intro m0 hne
      rw [List.foldl_cons,
        ih (insertKV m0 (sid, q.1) q.2)
          (fun p hp => hne p (List.mem_cons_of_mem _ hp))]
      refine lookupKV_insertKV_other m0 (sid, q.1) (sid, i) q.2 ?_
      intro he
      exact hne q (List.mem_cons_self _ _) (by cases he; rfl)

theorem enumFrom_fst_ge {V : Type} :
    ∀ (l : List V) (n : Nat) (p : Nat × V), p ∈ l.enumFrom n → n ≤ p.1 := by
  intro l
  induction l with
  | nil => intro n p h; cases h
  | cons x rest ih =>
      intro n p h
      rcases List.mem_cons.mp h with h1 | h1
      · subst h1; exact Nat.le_refl n
      · exact Nat.le_of_succ_le (ih (n + 1) p h1)

theorem lookupKV_foldl_insert_enumFrom (sid : Nat) :
    ∀ (segs : List Slot) (kk : Nat) (m0 : List (SegmentId × Slot)) (i : Nat),
      kk ≤ i → i < kk + segs.length →
      lookupKV ((segs.enumFrom kk).foldl
          (fun m p => insertKV m (sid, p.1) p.2) m0) (sid, i) =
        segs.get? (i - kk) := by
  intro segs
  induction segs with
  | nil => intro kk m0 i h1 h2; simp at h2; omega
  | cons s rest ih =>
      intro kk m0 i h1 h2
      show lookupKV (((kk, s) :: rest.enumFrom (kk + 1)).foldl
          (fun m p => insertKV m (sid, p.1) p.2) m0) (sid, i) = _
      rw [List.foldl_cons]
      by_cases hik : i = kk
      · subst hik
        rw [foldlInsert_lookup_of_ne sid i (rest.enumFrom (i + 1))
            (insertKV m0 (sid, i) s)
            (fun p hp => by
              have := enumFrom_fst_ge rest (i + 1) p hp
              omega)]
        rw [lookupKV_insertKV_self]
        simp
      · have hk1 : kk + 1 ≤ i := by omega
        rw [ih (kk + 1) (insertKV m0 (sid, kk) s) i hk1 (by simp at h2 ⊢; omega)]
        have hsub : i - kk = (i - (kk + 1)) + 1 := by omega
        rw [hsub]
        rfl

theorem initSlabSlot_congr {σ : Type} (CB : CacheBuilder σ) (slab : Slab)
    (ras : Bool) (ppr rs : Nat) (c1 c2 : ZeroCopyCache σ)
    (hcb : c1.cache_builder = c2.cache_builder)
    (hss : c1.segment_size = c2.segment_size)
    (hpl : c1.pinning_limit = c2.pinning_limit) (reg : Nat) :
    initSlabSlot CB slab ras ppr rs c1 reg =
      initSlabSlot CB slab ras ppr rs c2 reg := by
  unfold initSlabSlot initSlabShouldPin ZeroCopyCache.current_bytes_pinned
  simp only [hcb, hss, hpl]

theorem initSlabStep_spec {σ : Type} (CB : CacheBuilder σ) (slab : Slab)
    (ras : Bool) (ppr rs : Nat)
    (acc : ZeroCopyCache σ × List SegmentId × List Slot) (reg : Nat) :
    (ZeroCopyCache.initSlabStep CB slab ras ppr rs acc reg).1.cache_builder =
        acc.1.cache_builder ∧
    (ZeroCopyCache.initSlabStep CB slab ras ppr rs acc reg).1.pinning_limit =
        acc.1.pinning_limit ∧
    (ZeroCopyCache.initSlabStep CB slab ras ppr rs acc reg).1.segment_size =
        acc.1.segment_size ∧
    (ZeroCopyCache.initSlabStep CB slab ras ppr rs acc reg).1.segments =
        acc.1.segments ∧
    (ZeroCopyCache.initSlabStep CB slab ras ppr rs acc reg).2.2 =
        acc.2.2 ++ [initSlabSlot CB slab ras ppr rs acc.1 reg] := by
  exact ⟨rfl, rfl, rfl, rfl, rfl⟩

theorem foldl_initSlabStep_spec {σ : Type} (CB : CacheBuilder σ) (slab : Slab)
    (ras : Bool) (ppr rs : Nat) :
    ∀ (l : List Nat) (acc : ZeroCopyCache σ × List SegmentId × List Slot),
      (l.foldl (ZeroCopyCache.initSlabStep CB slab ras ppr rs) acc).1.cache_builder =
          acc.1.cache_builder ∧
      (l.foldl (ZeroCopyCache.initSlabStep CB slab ras ppr rs) acc).1.pinning_limit =
          acc.1.pinning_limit ∧
      (l.foldl (ZeroCopyCache.initSlabStep CB slab ras ppr rs) acc).1.segment_size =
          acc.1.segment_size ∧
      (l.foldl (ZeroCopyCache.initSlabStep CB slab ras ppr rs) acc).1.segments =
          acc.1.segments ∧
      (l.foldl (ZeroCopyCache.initSlabStep CB slab ras ppr rs) acc).2.2 =
          acc.2.2 ++ l.map (initSlabSlot CB slab ras ppr rs acc.1) := by
  intro l
  induction l with
  | nil => intro acc; exact ⟨rfl, rfl, rfl, rfl, by simp⟩
  | cons a l ih =>
      intro acc
      obtain ⟨scb, spl, sss, ssg, ssegs⟩ :=
        initSlabStep_spec CB slab ras ppr rs acc a
      obtain ⟨icb, ipl, iss, isg, isegs⟩ :=
        ih (ZeroCopyCache.initSlabStep CB slab ras ppr rs acc a)
      rw [List.foldl_cons]
      refine ⟨icb.trans scb, ipl.trans spl, iss.trans sss, isg.trans ssg, ?_⟩
      rw [isegs, ssegs,
        List.map_congr_left
          (fun reg _ =>
            initSlabSlot_congr CB slab ras ppr rs _ _ scb sss spl reg),
        List.map_cons, List.append_assoc]
      rfl

/-! Theorems settling the claims. -/

/-- Claim C4: with `pinning_limit = 0` and `segment_size = 0` the two
config guards pass (the source explicitly allows the 0/0 pair), but
construction then panics dividing by zero in
`CacheBuilder::new(pinning_limit / segment_size)`, so `new` never returns
`Ok` — contradicting the claim that construction succeeds. -/
theorem claim_C4_new_zero_config_panics :
    ZeroCopyCache.new mfuBuilder 0 0 false () =
      Except.error CacheError.panicDivideByZero := by
  rfl

/-- Claim C8 counterexample: `"mFu"` equals `"mfu"` up to ASCII letter
case and `"mfu"` parses, yet `from_str "mFu"` is rejected — parsing is not
case-insensitive. -/
theorem claim_C8_counterexample :
    CacheType.from_str "mFu" = Except.error CacheError.unknownCacheType ∧
    CacheType.from_str "mfu" = Except.ok CacheType.Mfu :=
  ⟨by rfl, by rfl⟩

/-- Claim C9: `MfuCache::reset` zeroes every stored access count while
leaving the key list, the limit, and the current pinned list untouched. -/
theorem claim_C9_mfu_reset_frame (m : MfuCache) :
    m.reset.access_counts.map Prod.fst = m.access_counts.map Prod.fst ∧
    (∀ p ∈ m.reset.access_counts, p.2 = 0) ∧
    m.reset.limit = m.limit ∧
    m.reset.current_pinned_list = m.current_pinned_list := by
  refine ⟨?_, ?_, rfl, rfl⟩
  · show (m.access_counts.map (fun p => (p.1, 0))).map Prod.fst = _
    rw [List.map_map]
    rfl
  · intro p hp
    obtain ⟨q, _, hq⟩ :=
      List.mem_map.mp (show p ∈ m.access_counts.map (fun p => (p.1, 0)) from hp)
    rw [← hq]

/-- Witness for C9 at a concrete MFU state. -/
theorem claim_C9_witness :
    mfuExample.reset.access_counts.map Prod.fst =
        mfuExample.access_counts.map Prod.fst ∧
    (((1, 1), 0) : SegmentId × Nat).2 = 0 ∧
    mfuExample.reset.limit = mfuExample.limit ∧
    mfuExample.reset.current_pinned_list = mfuExample.current_pinned_list :=
  ⟨(claim_C9_mfu_reset_frame mfuExample).1,
   (claim_C9_mfu_reset_frame mfuExample).2.1 ((1, 1), 0) (by decide),
   (claim_C9_mfu_reset_frame mfuExample).2.2.1,
   (claim_C9_mfu_reset_frame mfuExample).2.2.2⟩

/-- Claim C6: `get_segment_id` consults the 2 MiB, 4 KiB, then 1 GiB page
cache at the buffer's masked address, returns the first hit, and returns
`none` when no map contains the masked address. -/
theorem claim_C6_get_segment_id_order {σ : Type} (c : ZeroCopyCache σ)
    (buf : Nat) :
    (∀ m, lookupKV c.page_cache_2mb (closest_2mb_page buf) = some m →
      c.get_segment_id buf = some m) ∧
    (∀ m, lookupKV c.page_cache_2mb (closest_2mb_page buf) = none →
      lookupKV c.page_cache_4kb (closest_4k_page buf) = some m →
      c.get_segment_id buf = some m) ∧
    (∀ m, lookupKV c.page_cache_2mb (closest_2mb_page buf) = none →
      lookupKV c.page_cache_4kb (closest_4k_page buf) = none →
      lookupKV c.page_cache_1gb (closest_1g_page buf) = some m →
      c.get_segment_id buf = some m) ∧
    (lookupKV c.page_cache_2mb (closest_2mb_page buf) = none →
      lookupKV c.page_cache_4kb (closest_4k_page buf) = none →
      lookupKV c.page_cache_1gb (closest_1g_page buf) = none →
      c.get_segment_id buf = none) := by
  refine ⟨fun m h2 => ?_, fun m h2 h4 => ?_, fun m h2 h4 h1 => ?_,
    fun h2 h4 h1 => ?_⟩
  · simp only [ZeroCopyCache.get_segment_id, h2]
  · simp only [ZeroCopyCache.get_segment_id, h2, h4]
  · simp only [ZeroCopyCache.get_segment_id, h2, h4, h1]
  · simp only [ZeroCopyCache.get_segment_id, h2, h4, h1]

/-- Witness for C6: a buffer whose 4 KiB page is registered resolves
through the second map after the 2 MiB map misses. -/
theorem claim_C6_witness :
    quiescingCache.get_segment_id 268435456 = some (3, 0) :=
  (claim_C6_get_segment_id_order quiescingCache 268435456).2.1 (3, 0)
    (by rfl) (by decide)

/-- Claim C1 evaluation: on a pinned, quiescing slot with `in_flight = 0`,
the periodic fast path returns `Ok(None)` yet leaves the slot with
`in_flight = 1` — the source increments before checking the quiescing
flag, so `in_flight` grows on a `None` reply, contradicting the claim. -/
theorem claim_C1_quiescing_call_increments_in_flight :
    (ZeroCopyCache.record_access_and_get_io_info_if_pinned mfuBuilder
        quiescingCache 268435456 ()).map
      (fun e => e.toOption.map
        (fun p => (p.1, (lookupKV p.2.segments (3, 0)).map
          (fun s => s.in_flight)))) = some (some (none, some 1)) ∧
    (lookupKV quiescingCache.segments (3, 0)).map
      (fun s => (s.in_flight, s.quiescing, s.seg.is_pinned)) =
      some (0, true, true) :=
  ⟨by decide, by decide⟩

/-- Claim C2 evaluation: a 4096-byte-limit cache initializing a two-page
4 KiB slab with `register_at_start = true` ends with 8192 bytes pinned —
`current_bytes_pinned() ≤ pinning_limit` is violated because the loop
consults the policy's stale pinned list (committed only after the loop)
with a strict `<` test. -/
theorem claim_C2_register_at_start_exceeds_limit :
    overpinnedRun.map
      (fun c => (ZeroCopyCache.current_bytes_pinned mfuBuilder c,
        c.pinning_limit)) = some (8192, 4096) ∧ (4096 : Nat) < 8192 :=
  ⟨by decide, by decide⟩

/-- Claim C3 counterexample: when the MFU policy's desired set names a
segment id absent from the registry, the reconciliation pass returns the
`segmentNotFound` error instead of skipping it, and the reconciler loop
terminates with that error. -/
theorem claim_C3_counterexample :
    ZeroCopyCache.update_pinned_list mfuBuilder danglingDesiredCache () =
        some (Except.error CacheError.segmentNotFound) ∧
    ZeroCopyCache.pin_and_unpin_thread mfuBuilder 5 danglingDesiredCache () =
        some (Except.error CacheError.segmentNotFound) :=
  ⟨by rfl, by rfl⟩

/-- Claim C3 amended: a registry miss is skipped only on the unpin side —
`unpin_segment` logs and returns with the state unchanged, while
`pin_segment` returns the `segmentNotFound` error (which
`update_pinned_list` and the reconciler loop propagate). -/
theorem claim_C3_amended {σ : Type} (c : ZeroCopyCache σ) (id : SegmentId)
    (pi : Unit) (h : lookupKV c.segments id = none) :
    c.unpin_segment id = some c ∧
    c.pin_segment id pi = Except.error CacheError.segmentNotFound := by
  constructor
  · unfold ZeroCopyCache.unpin_segment
    rw [h]
  · unfold ZeroCopyCache.pin_segment
    rw [h]

/-- Witness for the amended C3 at a concrete cache with an empty registry. -/
theorem claim_C3_amended_witness :
    zcc4096.unpin_segment (9, 9) = some zcc4096 ∧
    zcc4096.pin_segment (9, 9) () = Except.error CacheError.segmentNotFound :=
  claim_C3_amended zcc4096 (9, 9) () (by rfl)

/-- Claim C5 counterexample: the 2048-byte segment size is accepted for a
one-page 4 KiB slab (4096 ≥ 2048 and 4096 mod 2048 = 0), but
`pages_per_registration = 1 / 2 = 0` truncates, so segment 1 starts at the
slab start instead of `slab.start + 1 × segment_size`. -/
theorem claim_C5_counterexample :
    truncatedRun.bind
      (fun c => (lookupKV c.segments (7, 1)).map
        (fun s => s.seg.start_address)) = some 268435456 ∧
    (268435456 : Nat) ≠ onePageSlab.start_address + 1 * 2048 :=
  ⟨by decide, by decide⟩

/-- Claim C7: the MFU policy returns at most `limit` segment ids, and
every returned id's access count is at least the count of every recorded
id that is not returned (keys of the map model are distinct, a `HashMap`
invariant). -/
theorem claim_C7_mfu_top_segments (m : MfuCache)
    (hnd : (m.access_counts.map Prod.fst).Nodup) :
    m.return_top_segments_to_pin.length ≤ m.limit ∧
    ∀ p ∈ m.access_counts, p.1 ∈ m.return_top_segments_to_pin →
      ∀ q ∈ m.access_counts, q.1 ∉ m.return_top_segments_to_pin →
        q.2 ≤ p.2 := by
  constructor
  · unfold MfuCache.return_top_segments_to_pin
    calc (((List.insertionSort mfuDescByCount m.access_counts).take
        m.limit).map (fun p => p.1)).dedup.length
        ≤ (((List.insertionSort mfuDescByCount m.access_counts).take
          m.limit).map (fun p => p.1)).length :=
          List.Sublist.length_le (List.dedup_sublist _)
      _ = ((List.insertionSort mfuDescByCount m.access_counts).take
          m.limit).length := List.length_map _ _
      _ ≤ m.limit := by
          rw [List.length_take]
          exact min_le_left _ _
  · intro p hp hpr q hq hqr
    simp only [MfuCache.return_top_segments_to_pin, List.mem_dedup] at hpr hqr
    have hperm := List.perm_insertionSort mfuDescByCount m.access_counts
    have hsorted := List.sorted_insertionSort mfuDescByCount m.access_counts
    obtain ⟨p1, hp1take, hp1fst⟩ := List.mem_map.mp hpr
    have hp1sorted : p1 ∈ List.insertionSort mfuDescByCount m.access_counts :=
      List.take_subset _ _ hp1take
    have hp1mem : p1 ∈ m.access_counts := hperm.mem_iff.mp hp1sorted
    have hp1p : p1 = p := List.inj_on_of_nodup_map hnd hp1mem hp hp1fst
    have hqsorted : q ∈ List.insertionSort mfuDescByCount m.access_counts :=
      hperm.mem_iff.mpr hq
    have hqdrop :
        q ∈ (List.insertionSort mfuDescByCount m.access_counts).drop m.limit := by
      rcases List.mem_append.mp
          (show q ∈ (List.insertionSort mfuDescByCount m.access_counts).take
              m.limit ++
            (List.insertionSort mfuDescByCount m.access_counts).drop m.limit by
            rw [List.take_append_drop]
            exact hqsorted) with h | h
      · exact absurd (List.mem_map_of_mem (fun p => p.1) h) hqr
      · exact h
    have hpw : List.Pairwise mfuDescByCount
        ((List.insertionSort mfuDescByCount m.access_counts).take m.limit ++
          (List.insertionSort mfuDescByCount m.access_counts).drop m.limit) := by
      rw [List.take_append_drop]
      exact hsorted
    have hrel := (List.pairwise_append.mp hpw).2.2 p1 hp1take q hqdrop
    rw [hp1p] at hrel
    exact hrel

/-- Witness for C7 at a concrete MFU state: the ids with counts 7 and 5
are returned, the id with count 3 is not, and 3 ≤ 7. -/
theorem claim_C7_witness :
    mfuExample.return_top_segments_to_pin.length ≤ mfuExample.limit ∧
    (3 : Nat) ≤ 7 :=
  ⟨(claim_C7_mfu_top_segments mfuExample (by decide)).1,
   (claim_C7_mfu_top_segments mfuExample (by decide)).2 ((2, 2), 7)
     (by decide) (by decide) ((1, 1), 3) (by decide) (by decide)⟩

/-- Claim C8 amended: `from_str` accepts exactly the fifteen spellings the
source lists — the all-lowercase, CamelCase, and all-uppercase form of each
policy name — and fails with the unknown-cache-type error on every other
string (general mixed case is not accepted). -/
theorem claim_C8_amended (s : String) (t : CacheType) :
    CacheType.from_str s = Except.ok t ↔ (s, t) ∈ acceptedCacheTypeNames := by
  unfold CacheType.from_str acceptedCacheTypeNames
  split_ifs with h1 h2 h3 h4 h5
  · rcases h1 with h | h | h <;> subst h <;> cases t <;> decide
  · rcases h2 with h | h | h <;> subst h <;> cases t <;> decide
  · rcases h3 with h | h | h <;> subst h <;> cases t <;> decide
  · rcases h4 with h | h | h <;> subst h <;> cases t <;> decide
  · rcases h5 with h | h | h <;> subst h <;> cases t <;> decide
  · constructor
    · intro he
      cases he
    · intro hm
      simp only [List.mem_cons, List.not_mem_nil, or_false, Prod.mk.injEq] at hm
      rcases hm with ⟨hs, _⟩ | ⟨hs, _⟩ | ⟨hs, _⟩ | ⟨hs, _⟩ | ⟨hs, _⟩ |
        ⟨hs, _⟩ | ⟨hs, _⟩ | ⟨hs, _⟩ | ⟨hs, _⟩ | ⟨hs, _⟩ | ⟨hs, _⟩ |
        ⟨hs, _⟩ | ⟨hs, _⟩ | ⟨hs, _⟩ | ⟨hs, _⟩
      · exact absurd (Or.inl hs) h1
      · exact absurd (Or.inr (Or.inl hs)) h1
      · exact absurd (Or.inr (Or.inr hs)) h1
      · exact absurd (Or.inl hs) h2
      · exact absurd (Or.inr (Or.inl hs)) h2
      · exact absurd (Or.inr (Or.inr hs)) h2
      · exact absurd (Or.inl hs) h3
      · exact absurd (Or.inr (Or.inl hs)) h3
      · exact absurd (Or.inr (Or.inr hs)) h3
      · exact absurd (Or.inl hs) h4
      · exact absurd (Or.inr (Or.inl hs)) h4
      · exact absurd (Or.inr (Or.inr hs)) h4
      · exact absurd (Or.inl hs) h5
      · exact absurd (Or.inr (Or.inl hs)) h5
      · exact absurd (Or.inr (Or.inr hs)) h5

/-- Positivity of the page-size constants. -/
theorem pageSizeNum_pos (ps : PageSize) : 0 < pageSizeNum ps := by
  cases ps <;> decide

/-- Looking up `(sid, i)` after inserting the enumerated slots into the
registry returns slot `i`, for `i` within bounds. -/
theorem lookupKV_foldl_insert_enum (sid : Nat) (segs : List Slot)
    (m0 : List (SegmentId × Slot)) (i : Nat) (h2 : i < segs.length) :
    lookupKV ((segs.enum).foldl
        (fun m p => insertKV m (sid, p.1) p.2) m0) (sid, i) =
      segs.get? i := by
  have he : segs.enum = segs.enumFrom 0 := rfl
  rw [he, lookupKV_foldl_insert_enumFrom sid segs 0 m0 i (Nat.zero_le i)
    (by omega)]
  rfl

/-- Claim C5 amended: an accepted slab is split into
`N = mempool_bytes / segment_size` segments of
`pages_per_registration = total_pages / N` pages each, and segment `i`
starts at `slab.start + (pages_per_registration × page_size) × i` — which
equals `slab.start + i × segment_size` exactly when the page size divides
the segment size (integer division truncates otherwise, as the
counterexample shows). -/
theorem claim_C5_amended {σ : Type} (CB : CacheBuilder σ) (c : ZeroCopyCache σ)
    (slab : Slab) (ras : Bool) (pi : Unit) (c' : ZeroCopyCache σ)
    (h : ZeroCopyCache.initialize_slab CB c slab ras pi = Except.ok c') :
    (pageSizeNum slab.page_size ∣ c.segment_size →
      slab.total_num_pages /
          (slab.total_num_pages * pageSizeNum slab.page_size / c.segment_size) *
          pageSizeNum slab.page_size = c.segment_size) ∧
    ∀ i, i < slab.total_num_pages * pageSizeNum slab.page_size / c.segment_size →
      (lookupKV c'.segments (slab.slab_id, i)).map
          (fun s => (s.seg.start_address, s.seg.num_pages)) =
        some (slab.start_address +
            slab.total_num_pages /
              (slab.total_num_pages * pageSizeNum slab.page_size /
                c.segment_size) * pageSizeNum slab.page_size * i,
          slab.total_num_pages /
            (slab.total_num_pages * pageSizeNum slab.page_size / c.segment_size)) := by
  simp only [ZeroCopyCache.initialize_slab] at h
  split_ifs at h with h0 h1
  injection h with hc
  obtain ⟨hge, hmod⟩ := h1
  have hpg : 0 < pageSizeNum slab.page_size := pageSizeNum_pos slab.page_size
  constructor
  · -- divisibility: reg_size = segment_size
    rintro ⟨k, hk⟩
    have hk0 : k ≠ 0 := by
      intro hk0
      exact h0 (by rw [hk, hk0, Nat.mul_zero])
    have htot : slab.total_num_pages ≠ 0 := by
      intro ht
      rw [ht, Nat.zero_mul] at hge
      exact h0 (Nat.le_antisymm hge (Nat.zero_le _))
    have hN : slab.total_num_pages * pageSizeNum slab.page_size / c.segment_size
        = slab.total_num_pages / k := by
      rw [hk, Nat.mul_comm slab.total_num_pages (pageSizeNum slab.page_size),
        Nat.mul_div_mul_left _ _ hpg]
    have hkdvd : k ∣ slab.total_num_pages := by
      have : slab.total_num_pages * pageSizeNum slab.page_size % c.segment_size
          = pageSizeNum slab.page_size * (slab.total_num_pages % k) := by
        rw [hk, Nat.mul_comm slab.total_num_pages (pageSizeNum slab.page_size),
          Nat.mul_mod_mul_left]
      rw [this] at hmod
      rcases Nat.mul_eq_zero.mp hmod with hz | hz
      · omega
      · exact Nat.dvd_of_mod_eq_zero hz
    rw [hN, Nat.div_div_self hkdvd htot, hk, Nat.mul_comm]
  · -- per-segment layout
    intro i hi
    have hcs : c'.segments =
        (((List.foldl (ZeroCopyCache.initSlabStep CB slab ras (slab.total_num_pages / (slab.total_num_pages * pageSizeNum slab.page_size / c.segment_size)) ((slab.total_num_pages / (slab.total_num_pages * pageSizeNum slab.page_size / c.segment_size)) * pageSizeNum slab.page_size)) (c, (CB.current_pinned_segments c.cache_builder), ([] : List Slot)) (List.range (slab.total_num_pages * pageSizeNum slab.page_size / c.segment_size))).2.2).enum).foldl
          (fun m p => insertKV m (slab.slab_id, p.1) p.2)
          ((List.foldl (ZeroCopyCache.initSlabStep CB slab ras (slab.total_num_pages / (slab.total_num_pages * pageSizeNum slab.page_size / c.segment_size)) ((slab.total_num_pages / (slab.total_num_pages * pageSizeNum slab.page_size / c.segment_size)) * pageSizeNum slab.page_size)) (c, (CB.current_pinned_segments c.cache_builder), ([] : List Slot)) (List.range (slab.total_num_pages * pageSizeNum slab.page_size / c.segment_size))).1.segments) :=
      (congrArg ZeroCopyCache.segments hc).symm
    have hsegs : (List.foldl (ZeroCopyCache.initSlabStep CB slab ras (slab.total_num_pages / (slab.total_num_pages * pageSizeNum slab.page_size / c.segment_size)) ((slab.total_num_pages / (slab.total_num_pages * pageSizeNum slab.page_size / c.segment_size)) * pageSizeNum slab.page_size)) (c, (CB.current_pinned_segments c.cache_builder), ([] : List Slot)) (List.range (slab.total_num_pages * pageSizeNum slab.page_size / c.segment_size))).2.2 =
        List.map (initSlabSlot CB slab ras (slab.total_num_pages / (slab.total_num_pages * pageSizeNum slab.page_size / c.segment_size)) ((slab.total_num_pages / (slab.total_num_pages * pageSizeNum slab.page_size / c.segment_size)) * pageSizeNum slab.page_size) c) (List.range (slab.total_num_pages * pageSizeNum slab.page_size / c.segment_size)) :=
      ((foldl_initSlabStep_spec CB slab ras (slab.total_num_pages / (slab.total_num_pages * pageSizeNum slab.page_size / c.segment_size)) ((slab.total_num_pages / (slab.total_num_pages * pageSizeNum slab.page_size / c.segment_size)) * pageSizeNum slab.page_size)
        (List.range (slab.total_num_pages * pageSizeNum slab.page_size / c.segment_size)) (c, (CB.current_pinned_segments c.cache_builder), ([] : List Slot))).2.2.2.2).trans
        (List.nil_append _)
    rw [hcs, hsegs]
    rw [lookupKV_foldl_insert_enum slab.slab_id _ _ i
      (by rw [List.length_map, List.length_range]; exact hi)]
    rw [List.get?_map, List.get?_range hi]
    unfold initSlabSlot initSlabSeg
    split <;> rfl

/-- Witness for the amended C5: initializing the two-page 4 KiB slab on a
4096-byte-segment cache, segment 1 starts one segment size after the slab
start. -/
theorem claim_C5_amended_witness :
    (pageSizeNum twoPageSlab.page_size ∣ zcc4096.segment_size →
      twoPageSlab.total_num_pages /
          (twoPageSlab.total_num_pages * pageSizeNum twoPageSlab.page_size /
            zcc4096.segment_size) * pageSizeNum twoPageSlab.page_size =
        zcc4096.segment_size) ∧
    (lookupKV layoutRunCache.segments (twoPageSlab.slab_id, 1)).map
        (fun s => (s.seg.start_address, s.seg.num_pages)) =
      some (twoPageSlab.start_address +
          twoPageSlab.total_num_pages /
            (twoPageSlab.total_num_pages * pageSizeNum twoPageSlab.page_size /
              zcc4096.segment_size) * pageSizeNum twoPageSlab.page_size * 1,
        twoPageSlab.total_num_pages /
          (twoPageSlab.total_num_pages * pageSizeNum twoPageSlab.page_size /
            zcc4096.segment_size)) :=
  ⟨(claim_C5_amended mfuBuilder zcc4096 twoPageSlab false () layoutRunCache
      (by rfl)).1,
   (claim_C5_amended mfuBuilder zcc4096 twoPageSlab false () layoutRunCache
      (by rfl)).2 1 (by decide)⟩

/-- Frame property of the drain protocol: a completed `unpin_segment`
leaves every slot's in-flight count unchanged and — when no slot was
quiescing beforehand — every quiescing flag unchanged. -/
theorem unpin_segment_frame {σ : Type} (c : ZeroCopyCache σ) (e : SegmentId)
    (c2 : ZeroCopyCache σ)
    (hq : ∀ p ∈ c.segments, p.2.quiescing = false)
    (h : c.unpin_segment e = some c2) :
    ∀ id, (lookupKV c2.segments id).map (fun s => (s.in_flight, s.quiescing)) =
      (lookupKV c.segments id).map (fun s => (s.in_flight, s.quiescing)) := by
  intro id
  unfold ZeroCopyCache.unpin_segment at h
  rcases hl : lookupKV c.segments e with _ | slot
  · rw [hl] at h
    injection h with h2
    rw [← h2]
  · rw [hl] at h
    dsimp only at h
    by_cases hz : slot.in_flight = 0
    · rw [if_pos hz] at h
      injection h with h2
      rw [← h2]
      dsimp only
      rw [lookupKV_updateKV]
      by_cases hide : id = e
      · subst hide
        rw [hl]
        have hqs : slot.quiescing = false := hq (id, slot) (lookupKV_mem hl)
        simp [hqs]
      · rw [if_neg hide]
    · rw [if_neg hz] at h
      cases h

/-- Frame property of `pin_segment`: registering a segment touches only
its pinning state, never any slot's in-flight count or quiescing flag. -/
theorem pin_segment_frame {σ : Type} (c : ZeroCopyCache σ) (sid : SegmentId)
    (pi : Unit) (io : Nat) (c2 : ZeroCopyCache σ)
    (h : c.pin_segment sid pi = Except.ok (io, c2)) :
    ∀ id, (lookupKV c2.segments id).map (fun s => (s.in_flight, s.quiescing)) =
      (lookupKV c.segments id).map (fun s => (s.in_flight, s.quiescing)) := by
  intro id
  unfold ZeroCopyCache.pin_segment at h
  rcases hl : lookupKV c.segments sid with _ | slot
  · rw [hl] at h
    dsimp only at h
    cases h
  · rw [hl] at h
    dsimp only at h
    injection h with h2
    rw [Prod.mk.injEq] at h2
    obtain ⟨-, h3⟩ := h2
    rw [← h3]
    dsimp only
    rw [lookupKV_updateKV]
    by_cases hide : id = sid
    · subst hide
      rw [if_pos rfl]
      cases lookupKV c.segments id <;> rfl
    · rw [if_neg hide]

/-- Claim C10: in pin-on-demand mode a fast-path call that replies
`Ok(Some _)` leaves every slot's `in_flight` counter and (starting from a
non-quiescing state) every `quiescing` flag exactly as they were — the
on-demand branch only updates the policy, unpins the evictee, and pins the
accessed segment. -/
theorem claim_C10_on_demand_frame {σ : Type} (CB : CacheBuilder σ)
    (c : ZeroCopyCache σ) (buf : Nat) (pi : Unit) (r : Nat × Nat)
    (c' : ZeroCopyCache σ)
    (hpod : c.pin_on_demand = true)
    (hq : ∀ p ∈ c.segments, p.2.quiescing = false)
    (h : ZeroCopyCache.record_access_and_get_io_info_if_pinned CB c buf pi =
      some (Except.ok (some r, c'))) :
    ∀ id, (lookupKV c'.segments id).map (fun s => (s.in_flight, s.quiescing)) =
      (lookupKV c.segments id).map (fun s => (s.in_flight, s.quiescing)) := by
  intro id
  unfold ZeroCopyCache.record_access_and_get_io_info_if_pinned at h
  rcases hg : c.get_segment_id buf with _ | sid
  · rw [hg] at h
    dsimp only at h
    injection h with h2
    injection h2 with h3
    injection h3 -- impossible: (none, c) = (some r, c')
    simp_all
  · rw [hg] at h
    dsimp only at h
    rw [hpod] at h
    rw [if_pos rfl] at h
    unfold ZeroCopyCache.record_and_pin_on_demand at h
    rcases hie : CB.insert_and_evict (CB.update_access c.cache_builder sid) sid
      with _ | pr
    · rw [hie] at h
      cases h
    · rw [hie] at h
      obtain ⟨cb2, evopt⟩ := pr
      dsimp only at h
      rcases evopt with _ | e
      · dsimp only at h
        rcases hp : ZeroCopyCache.pin_segment
            { c with cache_builder := cb2 } sid pi with err | pr2
        · rw [hp] at h
          cases h
        · rw [hp] at h
          obtain ⟨io, c3⟩ := pr2
          dsimp only at h
          injection h with h2
          injection h2 with h3
          have hc3 : c3 = c' := congrArg Prod.snd h3
          rw [← hc3]
          exact pin_segment_frame _ sid pi io c3 hp id
      · dsimp only at h
        rcases hu : ZeroCopyCache.unpin_segment
            { c with cache_builder := cb2 } e with _ | c2
        · rw [hu] at h
          cases h
        · rw [hu] at h
          dsimp only at h
          rcases hp : ZeroCopyCache.pin_segment c2 sid pi with err | pr2
          · rw [hp] at h
            cases h
          · rw [hp] at h
            obtain ⟨io, c3⟩ := pr2
            dsimp only at h
            injection h with h2
            injection h2 with h3
            have hc3 : c3 = c' := congrArg Prod.snd h3
            rw [← hc3]
            have h1 := pin_segment_frame c2 sid pi io c3 hp id
            have h2 := unpin_segment_frame { c with cache_builder := cb2 } e c2
              (by exact hq) hu id
            exact h1.trans h2

/-- Witness for C10: a successful on-demand access that pins the one
registered segment leaves its slot's in-flight count and quiescing flag
unchanged. -/
theorem claim_C10_witness :
    (lookupKV onDemandCacheAfter.segments (3, 0)).map
        (fun s => (s.in_flight, s.quiescing)) =
      (lookupKV onDemandCache.segments (3, 0)).map
        (fun s => (s.in_flight, s.quiescing)) :=
  claim_C10_on_demand_frame unitBuilder onDemandCache 268435456 ()
    (3, 268435456) onDemandCacheAfter (by rfl) (by decide) (by rfl) (3, 0)
